import Mathlib

/-!
Shallow embedding of the snake game's simulation core (src/src/main.rs).

The simulation state is modelled explicitly: the Bevy ECS entity store is
represented by lists of `(id, position)` records, message writers/readers by
boolean flags passed to the handlers, and the keyboard resource by a record
of asserted directional signals.  The random position fed to the food
spawner is an explicit argument.  Rust's `Option::unwrap` panic inside
`snake_growth` is modelled by returning `none`.
-/

namespace Snake

/-- Arena width, `const ARENA_WIDTH: u32 = 20` (as an `Int`, since positions
are `i32`). -/
def ARENA_WIDTH : Int := 20

/-- Arena height, `const ARENA_HEIGHT: u32 = 20`. -/
def ARENA_HEIGHT : Int := 20

/-- `struct Position { x: i32, y: i32 }`; compared by equality. -/
structure Position where
  x : Int
  y : Int
deriving DecidableEq, Repr

/-- `enum Direction { Left, Up, Right, Down }`. -/
inductive Direction where
  | Left
  | Up
  | Right
  | Down
deriving DecidableEq, Repr, Fintype

/-- `Direction::opposite`. -/
def Direction.opposite : Direction → Direction
  | .Left => .Right
  | .Right => .Left
  | .Up => .Down
  | .Down => .Up

/-- One snake segment or food entity: an ECS entity id together with its
`Position` component. -/
structure Segment where
  id : Nat
  pos : Position
deriving DecidableEq, Repr

/-- The whole simulation state: the latched head direction (`SnakeHead`),
the ordered segment sequence (`SnakeSegments`, head first), the
`LastTailPosition` resource, the live food entities, and a counter supplying
fresh entity ids for `Commands::spawn`. -/
structure GameState where
  direction : Direction
  segments : List Segment
  lastTailPosition : Option Position
  foods : List Segment
  nextId : Nat
deriving DecidableEq, Repr

/-- The set of directional keys currently asserted
(`ButtonInput<KeyCode>` restricted to the four arrow keys). -/
structure KeyInput where
  left : Bool
  right : Bool
  down : Bool
  up : Bool
deriving DecidableEq, Repr, Fintype

/-- `snake_movement_input`: pick the candidate direction by the checked
order Left, Right, Down, Up (retaining the current direction when no key is
asserted), then update only when the candidate is not the opposite of the
current direction. -/
def snake_movement_input (keyboard_input : KeyInput) (current : Direction) :
    Direction :=
  let dir : Direction :=
    if keyboard_input.left then Direction.Left
    else if keyboard_input.right then Direction.Right
    else if keyboard_input.down then Direction.Down
    else if keyboard_input.up then Direction.Up
    else current
  if dir ≠ current.opposite then dir else current

/-- The head-position mutation inside `snake_movement`'s `match` on the
latched direction. -/
def moveHead : Direction → Position → Position
  | .Left, p => { p with x := p.x - 1 }
  | .Right, p => { p with x := p.x + 1 }
  | .Up, p => { p with y := p.y + 1 }
  | .Down, p => { p with y := p.y - 1 }

/-- `snake_movement`: snapshot all segment positions, move the head one unit
in the latched direction, emit `GameOverEvent` (the returned `Bool`) on a
boundary or snapshot collision, shift each trailing segment onto the
pre-move position of its predecessor, and record `LastTailPosition`.
When no head exists (empty segment list) the system does nothing. -/
def snake_movement (s : GameState) : GameState × Bool :=
  match s.segments with
  | [] => (s, false)
  | headSeg :: rest =>
    let segment_positions : List Position :=
      headSeg.pos :: rest.map Segment.pos
    let head_pos : Position := moveHead s.direction headSeg.pos
    let outOfBounds : Bool :=
      decide (head_pos.x < 0) || decide (head_pos.y < 0) ||
      decide (ARENA_WIDTH ≤ head_pos.x) || decide (ARENA_HEIGHT ≤ head_pos.y)
    let collision : Bool := segment_positions.contains head_pos
    let newRest : List Segment :=
      List.zipWith (fun segment p => { segment with pos := p })
        rest segment_positions
    let s' : GameState :=
      { s with
        segments := { headSeg with pos := head_pos } :: newRest
        lastTailPosition :=
          some (segment_positions.getLast (List.cons_ne_nil _ _)) }
    (s', outOfBounds || collision)

/-- `spawn_segment`: create one fresh segment entity at the given position,
returning it together with the advanced id counter. -/
def spawn_segment (nextId : Nat) (position : Position) : Segment × Nat :=
  (⟨nextId, position⟩, nextId + 1)

/-- `spawn_snake`: the startup body — a head entity at `(3, 3)` carrying
`Direction::Up` followed by one tail segment spawned at `(3, 2)`. -/
def spawn_snake (nextId : Nat) : List Segment × Nat :=
  let headSeg : Segment := ⟨nextId, ⟨3, 3⟩⟩
  let tailSpawn := spawn_segment (nextId + 1) ⟨3, 2⟩
  ([headSeg, tailSpawn.1], tailSpawn.2)

/-- The state installed at startup (`spawn_snake` on the default
resources). -/
def initialState : GameState :=
  { direction := Direction.Up
    segments := (spawn_snake 0).1
    lastTailPosition := none
    foods := []
    nextId := (spawn_snake 0).2 }

/-- `food_spawner`: given the randomly generated position, spawn a food
entity there unless some snake segment already occupies that position.
The source never consults the existing food entities. -/
def food_spawner (s : GameState) (food_position : Position) : GameState :=
  if (s.segments.map Segment.pos).any (fun p => p == food_position) then s
  else
    { s with
      foods := s.foods ++ [⟨s.nextId, food_position⟩]
      nextId := s.nextId + 1 }

/-- `snake_growth`: when a `GrowthEvent` is pending, append one segment
spawned at `last_tail_position.0.unwrap()`.  The `unwrap` panics when
`LastTailPosition` holds no value; the panic is modelled as `none`. -/
def snake_growth (s : GameState) (growthPending : Bool) : Option GameState :=
  if growthPending then
    match s.lastTailPosition with
    | some p =>
      some { s with
              segments := s.segments ++ [(spawn_segment s.nextId p).1]
              nextId := (spawn_segment s.nextId p).2 }
    | none => none
  else some s

/-- `game_over`: when a `GameOverEvent` is pending, despawn every food and
segment entity and run `spawn_snake` afresh (which also resets the latched
direction to `Direction::Up`). -/
def game_over (s : GameState) (gameOverPending : Bool) : GameState :=
  if gameOverPending then
    { direction := Direction.Up
      segments := (spawn_snake s.nextId).1
      lastTailPosition := s.lastTailPosition
      foods := []
      nextId := (spawn_snake s.nextId).2 }
  else s

/-! ### Helper lemmas -/

/-- Unfolding `snake_movement` on a non-empty segment list: the resulting
segment sequence. -/
theorem snake_movement_cons_segments (dir : Direction) (headSeg : Segment)
    (rest : List Segment) (ltp : Option Position) (foods : List Segment)
    (nid : Nat) :
    (snake_movement ⟨dir, headSeg :: rest, ltp, foods, nid⟩).1.segments =
      { headSeg with pos := moveHead dir headSeg.pos } ::
        List.zipWith (fun segment p => { segment with pos := p }) rest
          (headSeg.pos :: rest.map Segment.pos) := rfl

/-- Unfolding `snake_movement` on a non-empty segment list: the recorded
`LastTailPosition`. -/
theorem snake_movement_cons_lastTail (dir : Direction) (headSeg : Segment)
    (rest : List Segment) (ltp : Option Position) (foods : List Segment)
    (nid : Nat) :
    (snake_movement ⟨dir, headSeg :: rest, ltp, foods, nid⟩).1.lastTailPosition
      = some ((headSeg.pos :: rest.map Segment.pos).getLast
          (List.cons_ne_nil _ _)) := rfl

/-- Unfolding `snake_movement` on a non-empty segment list: the emitted
`GameOverEvent` flag. -/
theorem snake_movement_cons_flag (dir : Direction) (headSeg : Segment)
    (rest : List Segment) (ltp : Option Position) (foods : List Segment)
    (nid : Nat) :
    (snake_movement ⟨dir, headSeg :: rest, ltp, foods, nid⟩).2 =
      ((decide ((moveHead dir headSeg.pos).x < 0) ||
        decide ((moveHead dir headSeg.pos).y < 0) ||
        decide (ARENA_WIDTH ≤ (moveHead dir headSeg.pos).x) ||
        decide (ARENA_HEIGHT ≤ (moveHead dir headSeg.pos).y)) ||
       (headSeg.pos :: rest.map Segment.pos).contains
         (moveHead dir headSeg.pos)) := rfl

/-- Mapping positions over the shift `zipWith` yields a prefix of the
snapshot. -/
theorem zipWith_shift_map_pos (rest : List Segment) (snap : List Position) :
    (List.zipWith (fun segment p => { segment with pos := p }) rest
        snap).map Segment.pos = snap.take rest.length := by
  induction rest generalizing snap with
  | nil => simp
  | cons a as ih =>
    cases snap with
    | nil => simp
    | cons p ps => simpa using ih ps

/-- The shift `zipWith` keeps entity ids in order. -/
theorem zipWith_shift_map_id (rest : List Segment) (snap : List Position)
    (h : rest.length ≤ snap.length) :
    (List.zipWith (fun segment p => { segment with pos := p }) rest
        snap).map Segment.id = rest.map Segment.id := by
  induction rest generalizing snap with
  | nil => simp
  | cons a as ih =>
    cases snap with
    | nil => simp at h
    | cons p ps =>
      simp only [List.length_cons, Nat.succ_le_succ_iff] at h
      simpa using ih ps h

/-- `snake_movement` keeps the number of segments. -/
theorem snake_movement_cons_length (dir : Direction) (headSeg : Segment)
    (rest : List Segment) (ltp : Option Position) (foods : List Segment)
    (nid : Nat) :
    (snake_movement ⟨dir, headSeg :: rest, ltp, foods, nid⟩).1.segments.length
      = rest.length + 1 := by
  rw [snake_movement_cons_segments]
  simp [Nat.min_eq_left (Nat.le_succ _)]

/-- `snake_growth` with a pending event and a recorded tail position
appends one fresh segment there. -/
theorem snake_growth_some (s : GameState) (p : Position)
    (h : s.lastTailPosition = some p) :
    snake_growth s true =
      some { s with
              segments := s.segments ++ [⟨s.nextId, p⟩]
              nextId := s.nextId + 1 } := by
  unfold snake_growth
  rw [h]
  rfl

/-- Distinctness of the post-move position lists: prepending a fresh head
position to a prefix of a duplicate-free snapshot, with or without the
snapshot's last element re-appended, stays duplicate-free. -/
theorem nodup_head_cons_take {α : Type} (x : α) (snap : List α)
    (h : snap ≠ []) (hx : x ∉ snap) (hsnap : snap.Nodup) :
    (x :: snap.take (snap.length - 1)).Nodup ∧
    (x :: (snap.take (snap.length - 1) ++ [snap.getLast h])).Nodup := by
  have hall : (x :: snap).Nodup := List.nodup_cons.mpr ⟨hx, hsnap⟩
  have hdl : snap.take (snap.length - 1) = snap.dropLast :=
    (List.dropLast_eq_take snap).symm
  constructor
  · rw [hdl]
    exact List.Nodup.sublist
      (List.Sublist.cons₂ x (List.dropLast_sublist snap)) hall
  · rw [hdl, List.dropLast_append_getLast h]
    exact hall

/-- Modelled from the spec's words (section 4.1), for comparison with
`snake_movement_input`: the candidate direction is chosen with priority
Left > Right > Down > Up, first matching signal wins; when none is asserted
the previously latched direction is retained; a candidate equal to the
opposite of the current direction is discarded and the current direction
kept, otherwise the candidate becomes the new latched direction. -/
def latchSpec (keys : KeyInput) (current : Direction) : Direction :=
  let candidate : Direction :=
    if keys.left then Direction.Left
    else if keys.right then Direction.Right
    else if keys.down then Direction.Down
    else if keys.up then Direction.Up
    else current
  if candidate = current.opposite then current else candidate

/-! ### Claim theorems -/

/-- C7: on each input step the latched direction is updated exactly as the
spec describes — candidate priority Left > Right > Down > Up, retention when
no signal is asserted, and a reversal candidate is discarded; in particular
with current direction Right and only Left asserted the direction stays
Right. -/
theorem input_latch_matches_spec :
    (∀ (keys : KeyInput) (current : Direction),
      snake_movement_input keys current = latchSpec keys current) ∧
    snake_movement_input ⟨true, false, false, false⟩ Direction.Right =
      Direction.Right := by
  constructor
  · decide
  · decide

/-- C3: whenever the newly computed head position coincides with the
pre-move snapshot position of any segment (former tail included),
`snake_movement` emits the `GameOverEvent` for this tick. -/
theorem advance_self_collision_game_over (s : GameState) (headSeg : Segment)
    (rest : List Segment) (hs : s.segments = headSeg :: rest)
    (hcol : moveHead s.direction headSeg.pos ∈
      (headSeg :: rest).map Segment.pos) :
    (snake_movement s).2 = true := by
  obtain ⟨dir, segs, ltp, foods, nid⟩ := s
  simp only at hs
  subst hs
  simp only at hcol
  have hmem : moveHead dir headSeg.pos ∈ headSeg.pos :: rest.map Segment.pos := by
    simpa using hcol
  have hc : (headSeg.pos :: rest.map Segment.pos).contains
      (moveHead dir headSeg.pos) = true := List.elem_eq_true_of_mem hmem
  rw [snake_movement_cons_flag, hc, Bool.or_true]

/-- Certifies C3 at a concrete input: a 3-segment body at
[(5,5),(5,4),(5,3)] latched Down moves onto its own second segment and the
game-over flag fires. -/
theorem advance_self_collision_game_over_witness :
    ((⟨Direction.Down, [⟨0, ⟨5, 5⟩⟩, ⟨1, ⟨5, 4⟩⟩, ⟨2, ⟨5, 3⟩⟩], none, [], 3⟩ :
        GameState).segments = ⟨0, ⟨5, 5⟩⟩ :: [⟨1, ⟨5, 4⟩⟩, ⟨2, ⟨5, 3⟩⟩]) ∧
    (moveHead Direction.Down (⟨5, 5⟩ : Position) ∈
      ((⟨0, ⟨5, 5⟩⟩ : Segment) :: [⟨1, ⟨5, 4⟩⟩, ⟨2, ⟨5, 3⟩⟩]).map Segment.pos) ∧
    (snake_movement
        ⟨Direction.Down, [⟨0, ⟨5, 5⟩⟩, ⟨1, ⟨5, 4⟩⟩, ⟨2, ⟨5, 3⟩⟩], none, [],
          3⟩).2 = true :=
  ⟨rfl, by decide,
    advance_self_collision_game_over _ ⟨0, ⟨5, 5⟩⟩ [⟨1, ⟨5, 4⟩⟩, ⟨2, ⟨5, 3⟩⟩]
      rfl (by decide)⟩

/-- C4: for any non-empty body, `snake_movement` gives the head the
one-unit offset of the latched direction (Left is x-1, Right is x+1, Up is
y+1, Down is y-1) and every trailing segment the pre-move snapshot position
of its predecessor; in particular the 3-segment body [(5,5),(5,4),(5,3)]
moving Up ends at [(5,6),(5,5),(5,4)]. -/
theorem advance_moves_head_and_shifts (s : GameState) (headSeg : Segment)
    (rest : List Segment) (hs : s.segments = headSeg :: rest) :
    ((snake_movement s).1.segments.map Segment.pos =
      moveHead s.direction headSeg.pos ::
        ((headSeg :: rest).map Segment.pos).take rest.length) ∧
    (∀ p : Position,
      moveHead Direction.Left p = ⟨p.x - 1, p.y⟩ ∧
      moveHead Direction.Right p = ⟨p.x + 1, p.y⟩ ∧
      moveHead Direction.Up p = ⟨p.x, p.y + 1⟩ ∧
      moveHead Direction.Down p = ⟨p.x, p.y - 1⟩) ∧
    (snake_movement
        ⟨Direction.Up, [⟨0, ⟨5, 5⟩⟩, ⟨1, ⟨5, 4⟩⟩, ⟨2, ⟨5, 3⟩⟩], none, [],
          3⟩).1.segments.map Segment.pos = [⟨5, 6⟩, ⟨5, 5⟩, ⟨5, 4⟩] := by
  refine ⟨?_, fun p => ⟨rfl, rfl, rfl, rfl⟩, by decide⟩
  obtain ⟨dir, segs, ltp, foods, nid⟩ := s
  simp only at hs
  subst hs
  rw [snake_movement_cons_segments]
  simp [zipWith_shift_map_pos]

/-- Certifies C4 at a concrete input: the spec's 3-segment example moving
Up. -/
theorem advance_moves_head_and_shifts_witness :
    ((⟨Direction.Up, [⟨0, ⟨5, 5⟩⟩, ⟨1, ⟨5, 4⟩⟩, ⟨2, ⟨5, 3⟩⟩], none, [], 3⟩ :
        GameState).segments = ⟨0, ⟨5, 5⟩⟩ :: [⟨1, ⟨5, 4⟩⟩, ⟨2, ⟨5, 3⟩⟩]) ∧
    (snake_movement
        ⟨Direction.Up, [⟨0, ⟨5, 5⟩⟩, ⟨1, ⟨5, 4⟩⟩, ⟨2, ⟨5, 3⟩⟩], none, [],
          3⟩).1.segments.map Segment.pos =
      moveHead Direction.Up (⟨5, 5⟩ : Position) ::
        (((⟨0, ⟨5, 5⟩⟩ : Segment) :: [⟨1, ⟨5, 4⟩⟩, ⟨2, ⟨5, 3⟩⟩]).map
            Segment.pos).take 2 :=
  ⟨rfl,
    (advance_moves_head_and_shifts _ ⟨0, ⟨5, 5⟩⟩
        [⟨1, ⟨5, 4⟩⟩, ⟨2, ⟨5, 3⟩⟩] rfl).1⟩

/-- C5: whenever the moved head leaves the arena `[0,WIDTH) x [0,HEIGHT)`,
`snake_movement` emits the `GameOverEvent`, and the `game_over` handler then
leaves no food entity, resets the latched direction to Up, and replaces the
body with the startup two-segment body (head plus one tail) at the
canonical start position (3,3)/(3,2), built from fresh entity ids. -/
theorem advance_boundary_game_over_reset (s : GameState) (headSeg : Segment)
    (rest : List Segment) (hs : s.segments = headSeg :: rest)
    (hout : (moveHead s.direction headSeg.pos).x < 0 ∨
            (moveHead s.direction headSeg.pos).y < 0 ∨
            ARENA_WIDTH ≤ (moveHead s.direction headSeg.pos).x ∨
            ARENA_HEIGHT ≤ (moveHead s.direction headSeg.pos).y) :
    (snake_movement s).2 = true ∧
    (game_over (snake_movement s).1 (snake_movement s).2).foods = [] ∧
    (game_over (snake_movement s).1 (snake_movement s).2).direction =
      Direction.Up ∧
    (game_over (snake_movement s).1 (snake_movement s).2).segments =
      [⟨(snake_movement s).1.nextId, ⟨3, 3⟩⟩,
       ⟨(snake_movement s).1.nextId + 1, ⟨3, 2⟩⟩] := by
  obtain ⟨dir, segs, ltp, foods, nid⟩ := s
  simp only at hs
  subst hs
  simp only at hout
  have hflag :
      (snake_movement ⟨dir, headSeg :: rest, ltp, foods, nid⟩).2 = true := by
    rw [snake_movement_cons_flag]
    rcases hout with h | h | h | h <;> simp [h]
  rw [hflag]
  exact ⟨rfl, rfl, rfl, rfl⟩

/-- Certifies C5 at a concrete input: a head at (0,5) latched Left walks off
the left edge; the pending food is destroyed and the startup body
restored. -/
theorem advance_boundary_game_over_reset_witness :
    ((⟨Direction.Left, [⟨0, ⟨0, 5⟩⟩, ⟨1, ⟨1, 5⟩⟩], none, [⟨7, ⟨9, 9⟩⟩], 8⟩ :
        GameState).segments = ⟨0, ⟨0, 5⟩⟩ :: [⟨1, ⟨1, 5⟩⟩]) ∧
    ((moveHead Direction.Left (⟨0, 5⟩ : Position)).x < 0 ∨
     (moveHead Direction.Left (⟨0, 5⟩ : Position)).y < 0 ∨
     ARENA_WIDTH ≤ (moveHead Direction.Left (⟨0, 5⟩ : Position)).x ∨
     ARENA_HEIGHT ≤ (moveHead Direction.Left (⟨0, 5⟩ : Position)).y) ∧
    ((snake_movement
        ⟨Direction.Left, [⟨0, ⟨0, 5⟩⟩, ⟨1, ⟨1, 5⟩⟩], none, [⟨7, ⟨9, 9⟩⟩],
          8⟩).2 = true ∧
     (game_over
        (snake_movement
          ⟨Direction.Left, [⟨0, ⟨0, 5⟩⟩, ⟨1, ⟨1, 5⟩⟩], none, [⟨7, ⟨9, 9⟩⟩],
            8⟩).1
        (snake_movement
          ⟨Direction.Left, [⟨0, ⟨0, 5⟩⟩, ⟨1, ⟨1, 5⟩⟩], none, [⟨7, ⟨9, 9⟩⟩],
            8⟩).2).foods = [] ∧
     (game_over
        (snake_movement
          ⟨Direction.Left, [⟨0, ⟨0, 5⟩⟩, ⟨1, ⟨1, 5⟩⟩], none, [⟨7, ⟨9, 9⟩⟩],
            8⟩).1
        (snake_movement
          ⟨Direction.Left, [⟨0, ⟨0, 5⟩⟩, ⟨1, ⟨1, 5⟩⟩], none, [⟨7, ⟨9, 9⟩⟩],
            8⟩).2).direction = Direction.Up ∧
     (game_over
        (snake_movement
          ⟨Direction.Left, [⟨0, ⟨0, 5⟩⟩, ⟨1, ⟨1, 5⟩⟩], none, [⟨7, ⟨9, 9⟩⟩],
            8⟩).1
        (snake_movement
          ⟨Direction.Left, [⟨0, ⟨0, 5⟩⟩, ⟨1, ⟨1, 5⟩⟩], none, [⟨7, ⟨9, 9⟩⟩],
            8⟩).2).segments =
       [⟨(snake_movement
            ⟨Direction.Left, [⟨0, ⟨0, 5⟩⟩, ⟨1, ⟨1, 5⟩⟩], none, [⟨7, ⟨9, 9⟩⟩],
              8⟩).1.nextId, ⟨3, 3⟩⟩,
        ⟨(snake_movement
            ⟨Direction.Left, [⟨0, ⟨0, 5⟩⟩, ⟨1, ⟨1, 5⟩⟩], none, [⟨7, ⟨9, 9⟩⟩],
              8⟩).1.nextId + 1, ⟨3, 2⟩⟩]) :=
  ⟨rfl, by decide,
    advance_boundary_game_over_reset _ ⟨0, ⟨0, 5⟩⟩ [⟨1, ⟨1, 5⟩⟩] rfl
      (by decide)⟩

/-- C6: on any non-empty body `snake_movement` unconditionally records
`LastTailPosition` as the pre-move position of the last segment, and a
growth handled afterwards appends exactly one segment at exactly that
position, increasing the body length by exactly 1. -/
theorem advance_records_tail_growth_appends (s : GameState)
    (headSeg : Segment) (rest : List Segment)
    (hs : s.segments = headSeg :: rest) :
    ∃ t : Position,
      ((headSeg :: rest).map Segment.pos).getLast? = some t ∧
      (snake_movement s).1.lastTailPosition = some t ∧
      ∃ s' : GameState,
        snake_growth (snake_movement s).1 true = some s' ∧
        s'.segments.map Segment.pos =
          (snake_movement s).1.segments.map Segment.pos ++ [t] ∧
        s'.segments.length = s.segments.length + 1 := by
  obtain ⟨dir, segs, ltp, foods, nid⟩ := s
  simp only at hs
  subst hs
  refine ⟨(headSeg.pos :: rest.map Segment.pos).getLast
    (List.cons_ne_nil _ _), ?_, ?_, ?_⟩
  · rw [List.map_cons]
    exact List.getLast?_eq_getLast _ _
  · rw [snake_movement_cons_lastTail]
  · refine ⟨_, snake_growth_some _ _ (snake_movement_cons_lastTail dir
      headSeg rest ltp foods nid), ?_, ?_⟩
    · simp
    · simp only [List.length_append, List.length_cons,
        snake_movement_cons_length, List.length_nil]

/-- Certifies C6 at a concrete input: the spec's P5 scenario, tail at (2,2)
before the triggering move. -/
theorem advance_records_tail_growth_appends_witness :
    ((⟨Direction.Up, [⟨0, ⟨2, 3⟩⟩, ⟨1, ⟨2, 2⟩⟩], none, [], 2⟩ :
        GameState).segments = ⟨0, ⟨2, 3⟩⟩ :: [⟨1, ⟨2, 2⟩⟩]) ∧
    (∃ t : Position,
      (((⟨0, ⟨2, 3⟩⟩ : Segment) :: [⟨1, ⟨2, 2⟩⟩]).map Segment.pos).getLast?
        = some t ∧
      (snake_movement
          ⟨Direction.Up, [⟨0, ⟨2, 3⟩⟩, ⟨1, ⟨2, 2⟩⟩], none, [],
            2⟩).1.lastTailPosition = some t ∧
      ∃ s' : GameState,
        snake_growth
          (snake_movement
            ⟨Direction.Up, [⟨0, ⟨2, 3⟩⟩, ⟨1, ⟨2, 2⟩⟩], none, [], 2⟩).1 true
          = some s' ∧
        s'.segments.map Segment.pos =
          (snake_movement
            ⟨Direction.Up, [⟨0, ⟨2, 3⟩⟩, ⟨1, ⟨2, 2⟩⟩], none, [],
              2⟩).1.segments.map Segment.pos ++ [t] ∧
        s'.segments.length =
          (⟨Direction.Up, [⟨0, ⟨2, 3⟩⟩, ⟨1, ⟨2, 2⟩⟩], none, [], 2⟩ :
            GameState).segments.length + 1) :=
  ⟨rfl, advance_records_tail_growth_appends _ ⟨0, ⟨2, 3⟩⟩ [⟨1, ⟨2, 2⟩⟩] rfl⟩

/-- C10: `snake_movement` is a frame effect on positions and the tail
record only — it never changes the number of segments, their entity ids or
their order, nor the food entities, the latched direction, or the id
counter. -/
theorem advance_frame_effect (s : GameState) :
    (snake_movement s).1.segments.map Segment.id =
      s.segments.map Segment.id ∧
    (snake_movement s).1.segments.length = s.segments.length ∧
    (snake_movement s).1.foods = s.foods ∧
    (snake_movement s).1.direction = s.direction ∧
    (snake_movement s).1.nextId = s.nextId ∧
    snake_growth s false = some s ∧
    game_over s false = s := by
  obtain ⟨dir, segs, ltp, foods, nid⟩ := s
  cases segs with
  | nil => exact ⟨rfl, rfl, rfl, rfl, rfl, rfl, rfl⟩
  | cons headSeg rest =>
    refine ⟨?_, ?_, rfl, rfl, rfl, rfl, rfl⟩
    · rw [snake_movement_cons_segments]
      simp only [List.map_cons]
      rw [zipWith_shift_map_id _ _ (by simp)]
    · rw [snake_movement_cons_length]
      simp

/-- C8: if all segment positions are pairwise distinct before the move and
`snake_movement` does not emit the `GameOverEvent`, the positions are
pairwise distinct after the move, also when a growth appends a segment at
the recorded `LastTailPosition` in the same tick. -/
theorem advance_preserves_distinct (s : GameState) (headSeg : Segment)
    (rest : List Segment) (hs : s.segments = headSeg :: rest)
    (hnodup : (s.segments.map Segment.pos).Nodup)
    (hok : (snake_movement s).2 = false) :
    ((snake_movement s).1.segments.map Segment.pos).Nodup ∧
    ∀ s' : GameState, snake_growth (snake_movement s).1 true = some s' →
      (s'.segments.map Segment.pos).Nodup := by
  obtain ⟨dir, segs, ltp, foods, nid⟩ := s
  simp only at hs hnodup hok ⊢
  subst hs
  simp only [List.map_cons] at hnodup
  rw [snake_movement_cons_flag, Bool.or_eq_false_iff] at hok
  have hmem : moveHead dir headSeg.pos ∉
      (headSeg.pos :: rest.map Segment.pos) := by
    intro hm
    have hc : (headSeg.pos :: rest.map Segment.pos).contains
        (moveHead dir headSeg.pos) = true := List.elem_eq_true_of_mem hm
    rw [hok.2] at hc
    exact Bool.false_ne_true hc
  have hpos : (snake_movement
      ⟨dir, headSeg :: rest, ltp, foods, nid⟩).1.segments.map Segment.pos =
      moveHead dir headSeg.pos ::
        (headSeg.pos :: rest.map Segment.pos).take rest.length := by
    rw [snake_movement_cons_segments]
    simp [zipWith_shift_map_pos]
  have hlen : (headSeg.pos :: rest.map Segment.pos).length - 1 =
      rest.length := by simp
  have hmain := nodup_head_cons_take (moveHead dir headSeg.pos)
    (headSeg.pos :: rest.map Segment.pos) (List.cons_ne_nil _ _) hmem hnodup
  rw [hlen] at hmain
  constructor
  · rw [hpos]
    exact hmain.1
  · intro s' hgrow
    rw [snake_growth_some _ _
      (snake_movement_cons_lastTail dir headSeg rest ltp foods nid)] at hgrow
    have hs' := Option.some.inj hgrow
    subst hs'
    simp only [List.map_append, hpos, List.map_cons, List.map_nil,
      List.cons_append]
    exact hmain.2

/-- Certifies C8 at a concrete input: a 2-segment body at
[(5,5),(5,4)] moving Up with no game over; distinctness is kept with and
without same-tick growth. -/
theorem advance_preserves_distinct_witness :
    ((⟨Direction.Up, [⟨0, ⟨5, 5⟩⟩, ⟨1, ⟨5, 4⟩⟩], none, [], 2⟩ :
        GameState).segments = ⟨0, ⟨5, 5⟩⟩ :: [⟨1, ⟨5, 4⟩⟩]) ∧
    ((⟨Direction.Up, [⟨0, ⟨5, 5⟩⟩, ⟨1, ⟨5, 4⟩⟩], none, [], 2⟩ :
        GameState).segments.map Segment.pos).Nodup ∧
    ((snake_movement
        ⟨Direction.Up, [⟨0, ⟨5, 5⟩⟩, ⟨1, ⟨5, 4⟩⟩], none, [], 2⟩).2
      = false) ∧
    (((snake_movement
        ⟨Direction.Up, [⟨0, ⟨5, 5⟩⟩, ⟨1, ⟨5, 4⟩⟩], none, [],
          2⟩).1.segments.map Segment.pos).Nodup ∧
     ∀ s' : GameState,
       snake_growth
         (snake_movement
           ⟨Direction.Up, [⟨0, ⟨5, 5⟩⟩, ⟨1, ⟨5, 4⟩⟩], none, [], 2⟩).1 true
         = some s' → (s'.segments.map Segment.pos).Nodup) :=
  ⟨rfl, by decide, by decide,
    advance_preserves_distinct _ ⟨0, ⟨5, 5⟩⟩ [⟨1, ⟨5, 4⟩⟩] rfl (by decide)
      (by decide)⟩

/-- C9: for every generated position, `food_spawner` never creates food on
a snake segment: if every existing food avoids the segment positions, so
does every food after the call, and the segments themselves are
untouched. -/
theorem trySpawn_preserves_food_exclusion (s : GameState) (p : Position)
    (hI4 : ∀ f ∈ s.foods, f.pos ∉ s.segments.map Segment.pos) :
    (food_spawner s p).segments = s.segments ∧
    ∀ f ∈ (food_spawner s p).foods,
      f.pos ∉ (food_spawner s p).segments.map Segment.pos := by
  unfold food_spawner
  by_cases hc : (s.segments.map Segment.pos).any (fun q => q == p) = true
  · rw [if_pos hc]
    exact ⟨rfl, hI4⟩
  · rw [if_neg hc]
    refine ⟨rfl, ?_⟩
    simp only [List.any_eq_true, beq_iff_eq, exists_eq_right] at hc
    intro f hf
    rcases List.mem_append.mp hf with h | h
    · exact hI4 f h
    · have hfp : f = ⟨s.nextId, p⟩ := by simpa using h
      subst hfp
      simpa using hc

/-- Certifies C9 at a concrete input: the startup body with no food, fed
the generated position (3,3) which lies on the head. -/
theorem trySpawn_preserves_food_exclusion_witness :
    (∀ f ∈ (⟨Direction.Up, [⟨0, ⟨3, 3⟩⟩, ⟨1, ⟨3, 2⟩⟩], none, [], 2⟩ :
        GameState).foods,
      f.pos ∉ (⟨Direction.Up, [⟨0, ⟨3, 3⟩⟩, ⟨1, ⟨3, 2⟩⟩], none, [], 2⟩ :
        GameState).segments.map Segment.pos) ∧
    ((food_spawner ⟨Direction.Up, [⟨0, ⟨3, 3⟩⟩, ⟨1, ⟨3, 2⟩⟩], none, [], 2⟩
        ⟨3, 3⟩).segments =
      (⟨Direction.Up, [⟨0, ⟨3, 3⟩⟩, ⟨1, ⟨3, 2⟩⟩], none, [], 2⟩ :
        GameState).segments ∧
     ∀ f ∈ (food_spawner
        ⟨Direction.Up, [⟨0, ⟨3, 3⟩⟩, ⟨1, ⟨3, 2⟩⟩], none, [], 2⟩
        ⟨3, 3⟩).foods,
      f.pos ∉ (food_spawner
        ⟨Direction.Up, [⟨0, ⟨3, 3⟩⟩, ⟨1, ⟨3, 2⟩⟩], none, [], 2⟩
        ⟨3, 3⟩).segments.map Segment.pos) :=
  ⟨by simp, trySpawn_preserves_food_exclusion _ _ (by simp)⟩

/-- C1 counterexample: `food_spawner` is not a no-op when food already
exists — with one food present and a generated position off the snake it
spawns a second food, so more than one food item can exist. -/
theorem food_spawner_second_food :
    ((⟨Direction.Up, [⟨0, ⟨3, 3⟩⟩], none, [⟨1, ⟨0, 0⟩⟩], 2⟩ :
        GameState).foods.length = 1) ∧
    (food_spawner ⟨Direction.Up, [⟨0, ⟨3, 3⟩⟩], none, [⟨1, ⟨0, 0⟩⟩], 2⟩
        ⟨5, 5⟩).foods.length = 2 := by
  exact ⟨rfl, rfl⟩

/-- C1 as amended: `food_spawner` creates a new food entity exactly when
the generated position does not coincide with any current snake segment
position, regardless of whether food already exists; everything else in the
state is unchanged. -/
theorem food_spawner_spawn_condition (s : GameState) (p : Position) :
    (food_spawner s p).foods =
      (if p ∈ s.segments.map Segment.pos then s.foods
       else s.foods ++ [⟨s.nextId, p⟩]) ∧
    (food_spawner s p).segments = s.segments ∧
    (food_spawner s p).lastTailPosition = s.lastTailPosition ∧
    (food_spawner s p).direction = s.direction := by
  unfold food_spawner
  by_cases hm : p ∈ s.segments.map Segment.pos
  · have hc : (s.segments.map Segment.pos).any (fun q => q == p) = true := by
      simp only [List.any_eq_true, beq_iff_eq, exists_eq_right]
      exact hm
    rw [if_pos hc, if_pos hm]
    exact ⟨rfl, rfl, rfl, rfl⟩
  · have hc : ¬ ((s.segments.map Segment.pos).any (fun q => q == p)
        = true) := by
      simp only [List.any_eq_true, beq_iff_eq, exists_eq_right]
      exact hm
    rw [if_neg hc, if_neg hm]
    exact ⟨rfl, rfl, rfl, rfl⟩

/-- C2: the growth handler is not a silent no-op when `LastTailPosition`
was never set — `snake_growth` reaches `Option::unwrap` on `None`
(modelled as `none`, a panic) at the startup state instead of leaving the
body unchanged. -/
theorem snake_growth_unset_tail_panics :
    initialState.lastTailPosition = none ∧
    snake_growth initialState true = none := ⟨rfl, rfl⟩

end Snake
